import Mathlib

/-!
Verification of the supplier scoring and classification engine of the
Data-Analytics-Portfolio repository
(02_Strategic_Supplier_Classification/sample_code/supplier_scoring_model.py
and segmentation_analysis.py).

The Python code is shallowly embedded over `ℚ`: every numeric column is a
rational, tables are lists, and the pandas vectorised operations are written
out as list recursions that mirror the source line by line.
-/

namespace SupplierScoring

/-- One supplier row, holding the numeric attributes read by
`calculate_supplier_score`.  Field order follows the Python record:
sole/single/multi source shares (the derived `*_Source_Ratio` columns),
`Ramp_Time_Months`, `Annual_Spend`, `Partnership_Score`, `Innovation_Score`,
`Supply_Risk_Score`. -/
structure SupplierRecord where
  soleSourceShare : ℚ
  singleSourceShare : ℚ
  multiSourceShare : ℚ
  rampTimeMonths : ℚ
  annualSpend : ℚ
  partnershipScore : ℚ
  innovationScore : ℚ
  supplyRiskScore : ℚ
deriving DecidableEq

/-- A per-business-unit weight configuration: the entries `W0, W2, ..., W9`
of the `bu_weights` dictionaries in `SupplierScoringModel.__init__`. -/
structure BUWeights where
  w0 : ℚ
  w2 : ℚ
  w3 : ℚ
  w4 : ℚ
  w5 : ℚ
  w6 : ℚ
  w7 : ℚ
  w8 : ℚ
  w9 : ℚ
deriving DecidableEq

/-- The `Business_Unit_A` weight dictionary from the source. -/
def buWeightsA : BUWeights :=
  { w0 := 100, w2 := 30, w3 := 20, w4 := 1, w5 := 25,
    w6 := 10, w7 := 25, w8 := 5, w9 := 5 }

/-- The `Business_Unit_B` weight dictionary from the source. -/
def buWeightsB : BUWeights :=
  { w0 := 100, w2 := 5, w3 := 5, w4 := 1, w5 := 20,
    w6 := 10, w7 := 25, w8 := 10, w9 := 20 }

/-- The two business units present in `bu_weights`. -/
inductive BUnit where
  | unitA : BUnit
  | unitB : BUnit
deriving DecidableEq

/-- The `self.bu_weights` lookup table. -/
def bu_weights : BUnit → BUWeights
  | BUnit.unitA => buWeightsA
  | BUnit.unitB => buWeightsB

/-- Embedding of `SupplierScoringModel.calculate_supplier_score`
(supplier_scoring_model.py lines 102-140).  Each `let` matches one
assignment of the Python body; the result is `total_score * 100`. -/
def calculate_supplier_score (w : BUWeights) (r : SupplierRecord) : ℚ :=
  let buImpact := w.w0 / 100
  let buScale : ℚ := 1
  let sourcingComponent :=
    (w.w2 * r.soleSourceShare + w.w3 * r.singleSourceShare +
      w.w4 * r.multiSourceShare) / 100
  let rampComponent :=
    w.w5 * (1 - 1 / (1 + (r.rampTimeMonths / 12) ^ 2)) / 100
  let spendComponent :=
    w.w6 * (1 - 1 / (1 + r.annualSpend / 100)) / 100
  let partnershipComponent := w.w7 * (r.partnershipScore / 3) / 100
  let innovationComponent := w.w8 * (r.innovationScore / 3) / 100
  let riskComponent := w.w9 * ((4 - r.supplyRiskScore) / 3) / 100
  let totalScore := buImpact * buScale *
    (sourcingComponent + rampComponent + spendComponent +
      partnershipComponent + innovationComponent + riskComponent)
  totalScore * 100

/-- The closed-form score of the specification: the six components summed,
multiplied by `scaleFactor/100` and then by 100.  Written from the spec's
words, to be compared with `calculate_supplier_score`. -/
def scoreFormulaSpec (w : BUWeights) (r : SupplierRecord) : ℚ :=
  ((w.w2 * r.soleSourceShare + w.w3 * r.singleSourceShare +
      w.w4 * r.multiSourceShare) / 100 +
    w.w5 * (1 - 1 / (1 + (r.rampTimeMonths / 12) ^ 2)) / 100 +
    w.w6 * (1 - 1 / (1 + r.annualSpend / 100)) / 100 +
    w.w7 * (r.partnershipScore / 3) / 100 +
    w.w8 * (r.innovationScore / 3) / 100 +
    w.w9 * ((4 - r.supplyRiskScore) / 3) / 100) * (w.w0 / 100) * 100

/-- The `self.segmentation_thresholds` dictionary (percentile lower bounds
per segment) from `SupplierScoringModel.__init__`. -/
structure SegThresholds where
  strategic : ℚ
  critical : ℚ
  operational : ℚ
  transactional : ℚ
deriving DecidableEq

/-- The built-in threshold values: Strategic 95, Critical 85,
Operational 45, Transactional 0. -/
def segmentation_thresholds : SegThresholds :=
  { strategic := 95, critical := 85, operational := 45, transactional := 0 }

/-- The inclusive percentile rank computed in `classify_suppliers`:
`(self.suppliers_data['Score'] <= score).mean() * 100`, i.e. the fraction of
scores in the table that are `≤ s`, times 100. -/
def percentile (scores : List ℚ) (s : ℚ) : ℚ :=
  ((scores.countP fun x => decide (x ≤ s)) : ℚ) / (scores.length : ℚ) * 100

/-- The threshold cascade of `classify_suppliers` (lines 162-169): the
percentile is compared against the thresholds from most to least strategic
and the first lower bound met wins. -/
def classifyByPercentile (p : ℚ) : String :=
  if segmentation_thresholds.strategic ≤ p then "Strategic"
  else if segmentation_thresholds.critical ≤ p then "Critical"
  else if segmentation_thresholds.operational ≤ p then "Operational"
  else "Transactional"

/-- Segment label of a score, given the whole table of scores. -/
def classifySegment (scores : List ℚ) (s : ℚ) : String :=
  classifyByPercentile (percentile scores s)

/-- Rank of a segment label in the ordered set
Strategic > Critical > Operational > Transactional. -/
def segRank : String → ℕ
  | "Strategic" => 3
  | "Critical" => 2
  | "Operational" => 1
  | _ => 0

/-- A table row as consumed by `classify_suppliers`: its business unit
(which selects the weight configuration) and its numeric attributes. -/
structure SupplierRow where
  bu : BUnit
  attrs : SupplierRecord
deriving DecidableEq

/-- Embedding of `SupplierScoringModel.classify_suppliers` (lines 142-174).
`none` models `self.suppliers_data is None`, which raises `ValueError`; a
`some rows` table is scored row by row and every row is then labelled by its
inclusive percentile rank among all scores.  The result pairs each row with
its `Score` and `Classification` columns. -/
def classify_suppliers (d : Option (List SupplierRow)) :
    Except String (List (SupplierRow × ℚ × String)) :=
  match d with
  | none =>
      Except.error "No supplier data available. Please generate or load data first."
  | some rows =>
      let scores := rows.map fun row =>
        calculate_supplier_score (bu_weights row.bu) row.attrs
      Except.ok (rows.map fun row =>
        (row, calculate_supplier_score (bu_weights row.bu) row.attrs,
          classifySegment scores
            (calculate_supplier_score (bu_weights row.bu) row.attrs)))

/-- The inclusive percentile rank written from the spec's words: the
fraction of suppliers in the table whose score is less than or equal to the
given score, times 100.  To be compared with `percentile`. -/
def percentileSpec (scores : List ℚ) (s : ℚ) : ℚ :=
  ((scores.filter fun x => decide (x ≤ s)).length : ℚ) /
    (scores.length : ℚ) * 100

/-- Supplier X of the spec's worked example: ratios (1,0,0), ramp 24 months,
spend 500, partnership 3, innovation 3, risk 1. -/
def supplierX : SupplierRecord :=
  { soleSourceShare := 1, singleSourceShare := 0, multiSourceShare := 0,
    rampTimeMonths := 24, annualSpend := 500, partnershipScore := 3,
    innovationScore := 3, supplyRiskScore := 1 }

/-- Supplier Y of the spec's worked example: ratios (0,0,1), ramp 3 months,
spend 1, partnership 1, innovation 1, risk 3. -/
def supplierY : SupplierRecord :=
  { soleSourceShare := 0, singleSourceShare := 0, multiSourceShare := 1,
    rampTimeMonths := 3, annualSpend := 1, partnershipScore := 1,
    innovationScore := 1, supplyRiskScore := 3 }

/-- A malformed record: negative annual spend and out-of-range ratings
(everything the spec's validation policy should reject). -/
def malformedRecord : SupplierRecord :=
  { soleSourceShare := 0, singleSourceShare := 0, multiSourceShare := 0,
    rampTimeMonths := 0, annualSpend := -50, partnershipScore := 0,
    innovationScore := 0, supplyRiskScore := 4 }

/-- A weight configuration whose per-unit weights W2..W9 are non-negative
and sum to 80 ≤ 100 and whose scale factor is ≤ 100 — but negative. -/
def negScaleWeights : BUWeights :=
  { w0 := -100, w2 := 10, w3 := 10, w4 := 10, w5 := 10,
    w6 := 10, w7 := 10, w8 := 10, w9 := 10 }

/-- A well-formed supplier record in the sense of claim C2: ratios in
`[0,1]`, positive ramp time, non-negative spend, ratings in `1..3`. -/
def ValidRecord (r : SupplierRecord) : Prop :=
  0 ≤ r.soleSourceShare ∧ r.soleSourceShare ≤ 1 ∧
  0 ≤ r.singleSourceShare ∧ r.singleSourceShare ≤ 1 ∧
  0 ≤ r.multiSourceShare ∧ r.multiSourceShare ≤ 1 ∧
  0 < r.rampTimeMonths ∧ 0 ≤ r.annualSpend ∧
  1 ≤ r.partnershipScore ∧ r.partnershipScore ≤ 3 ∧
  1 ≤ r.innovationScore ∧ r.innovationScore ≤ 3 ∧
  1 ≤ r.supplyRiskScore ∧ r.supplyRiskScore ≤ 3

/-- The weight condition stated by claim C2, word for word: W2..W9
non-negative and summing to at most 100, scale factor at most 100.  Note the
claim does not constrain the scale factor from below. -/
def ClaimedWeights (w : BUWeights) : Prop :=
  0 ≤ w.w2 ∧ 0 ≤ w.w3 ∧ 0 ≤ w.w4 ∧ 0 ≤ w.w5 ∧ 0 ≤ w.w6 ∧
  0 ≤ w.w7 ∧ 0 ≤ w.w8 ∧ 0 ≤ w.w9 ∧
  w.w2 + w.w3 + w.w4 + w.w5 + w.w6 + w.w7 + w.w8 + w.w9 ≤ 100 ∧
  w.w0 ≤ 100

/-- The descending order on spends used by
`sort_values('Annual_Spend', ascending=False)`. -/
def spendDescOrder (a b : ℚ) : Prop := b ≤ a

instance : DecidableRel spendDescOrder := fun a b =>
  inferInstanceAs (Decidable (b ≤ a))

instance : IsTotal ℚ spendDescOrder := ⟨fun a b => le_total b a⟩

instance : IsTrans ℚ spendDescOrder := ⟨fun _ _ _ h1 h2 => le_trans h2 h1⟩

instance : IsAntisymm ℚ spendDescOrder := ⟨fun _ _ h1 h2 => le_antisymm h2 h1⟩

/-- Descending sort on the `Annual_Spend` column:
`self.data.sort_values('Annual_Spend', ascending=False)`
(segmentation_analysis.py line 96). -/
def sortSpendsDesc (spends : List ℚ) : List ℚ :=
  spends.insertionSort spendDescOrder

/-- Running cumulative spend share in percent along a list of spends:
`cumulative_spend / total_spend * 100` where `acc` is the spend accumulated
so far (lines 97-99 of segmentation_analysis.py). -/
def cumulativePctsAux (total acc : ℚ) : List ℚ → List ℚ
  | [] => []
  | x :: xs => (acc + x) / total * 100 :: cumulativePctsAux total (acc + x) xs

/-- The cumulative spend-share column of the descending-sorted table. -/
def cumulativePcts (spends : List ℚ) : List ℚ :=
  cumulativePctsAux (sortSpendsDesc spends).sum 0 (sortSpendsDesc spends)

/-- Embedding of the `pareto_80_index` computation of
`spend_concentration_analysis` (segmentation_analysis.py line 102):
`(sorted_suppliers['cumulative_spend_pct'] <= 80).sum()`, the number of
suppliers whose cumulative spend share is at most 80%. -/
def pareto80Count (spends : List ℚ) : ℕ :=
  (cumulativePcts spends).countP fun p => decide (p ≤ 80)

/-- Position (1-based size of the prefix) at which the running cumulative
share first reaches or exceeds 80%; the whole length if it never does. -/
def firstReachAux (total acc : ℚ) : List ℚ → ℕ
  | [] => 0
  | x :: xs =>
      if 80 ≤ (acc + x) / total * 100 then 1
      else 1 + firstReachAux total (acc + x) xs

/-- The Pareto cutoff written from the spec's words: the size of the
smallest prefix of the descending-sorted suppliers whose cumulative spend
share first reaches or exceeds 80%.  To be compared with
`pareto80Count`. -/
def paretoCutoffSpec (spends : List ℚ) : ℕ :=
  firstReachAux (sortSpendsDesc spends).sum 0 (sortSpendsDesc spends)

end SupplierScoring

namespace SupplierScoring

/-- Claim C1: for every supplier record and weight configuration the score
returned by `calculate_supplier_score` equals the closed-form formula of the
specification: the six components summed, multiplied by `scaleFactor/100`
and then by 100. -/
theorem claim1_score_closed_form (w : BUWeights) (r : SupplierRecord) :
    calculate_supplier_score w r = scoreFormulaSpec w r := by
  simp only [calculate_supplier_score, scoreFormulaSpec]
  ring

/-- Claim C9: with the `Business_Unit_A` weights (W2=30, W3=20, W4=1, W5=25,
W6=10, W7=25, W8=5, W9=5, scale factor W0=100), supplier X scores strictly
higher than supplier Y. -/
theorem claim9_example_ordering :
    calculate_supplier_score buWeightsA supplierY <
      calculate_supplier_score buWeightsA supplierX := by
  norm_num [calculate_supplier_score, buWeightsA, supplierX, supplierY]

/-- Counterexample to claim C6: the score calculator has no error channel at
all — on a record with negative spend and out-of-range ratings it silently
computes the score `-10` instead of reporting a per-record validation
error. -/
theorem claim6_counterexample :
    calculate_supplier_score buWeightsA malformedRecord = -10 := by
  norm_num [calculate_supplier_score, buWeightsA, malformedRecord]

/-- Claim C6 as amended: `calculate_supplier_score` performs no input
validation and no clamping: a record with negative spend is silently scored
and its score even falls outside the nominal 0-100 range. -/
theorem claim6_no_validation :
    calculate_supplier_score buWeightsA malformedRecord < 0 := by
  norm_num [calculate_supplier_score, buWeightsA, malformedRecord]

/-- The saturating transform `1 - 1/(1+q)` stays in `[0, 1]` for
non-negative `q`. -/
theorem saturating_bounds {q : ℚ} (hq : 0 ≤ q) :
    0 ≤ 1 - 1 / (1 + q) ∧ 1 - 1 / (1 + q) ≤ 1 := by
  have h1 : (0 : ℚ) < 1 + q := by linarith
  constructor
  · have h2 : 1 / (1 + q) ≤ 1 := by
      rw [div_le_one h1]; linarith
    linarith
  · have h3 : 0 ≤ 1 / (1 + q) := by positivity
    linarith

/-- The score as scale factor times the sum of the six per-unit
components. -/
theorem score_unfolded (w : BUWeights) (r : SupplierRecord) :
    calculate_supplier_score w r =
      w.w0 *
        ((w.w2 * r.soleSourceShare + w.w3 * r.singleSourceShare +
            w.w4 * r.multiSourceShare) / 100 +
          w.w5 * (1 - 1 / (1 + (r.rampTimeMonths / 12) ^ 2)) / 100 +
          w.w6 * (1 - 1 / (1 + r.annualSpend / 100)) / 100 +
          w.w7 * (r.partnershipScore / 3) / 100 +
          w.w8 * (r.innovationScore / 3) / 100 +
          w.w9 * ((4 - r.supplyRiskScore) / 3) / 100) := by
  simp only [calculate_supplier_score]
  ring

/-- The sum of the six per-unit components lies in `[0, 1]` for a valid
record and claim-C2 weights. -/
theorem sum_components_bounds (w : BUWeights) (r : SupplierRecord)
    (hr : ValidRecord r) (hw : ClaimedWeights w) :
    0 ≤ (w.w2 * r.soleSourceShare + w.w3 * r.singleSourceShare +
          w.w4 * r.multiSourceShare) / 100 +
        w.w5 * (1 - 1 / (1 + (r.rampTimeMonths / 12) ^ 2)) / 100 +
        w.w6 * (1 - 1 / (1 + r.annualSpend / 100)) / 100 +
        w.w7 * (r.partnershipScore / 3) / 100 +
        w.w8 * (r.innovationScore / 3) / 100 +
        w.w9 * ((4 - r.supplyRiskScore) / 3) / 100 ∧
      (w.w2 * r.soleSourceShare + w.w3 * r.singleSourceShare +
          w.w4 * r.multiSourceShare) / 100 +
        w.w5 * (1 - 1 / (1 + (r.rampTimeMonths / 12) ^ 2)) / 100 +
        w.w6 * (1 - 1 / (1 + r.annualSpend / 100)) / 100 +
        w.w7 * (r.partnershipScore / 3) / 100 +
        w.w8 * (r.innovationScore / 3) / 100 +
        w.w9 * ((4 - r.supplyRiskScore) / 3) / 100 ≤ 1 := by
  obtain ⟨hs0, hs1, hg0, hg1, hm0, hm1, hramp, hspend,
    hp1, hp3, hi1, hi3, hk1, hk3⟩ := hr
  obtain ⟨hw2, hw3, hw4, hw5, hw6, hw7, hw8, hw9, hsum, -⟩ := hw
  obtain ⟨ht10, ht11⟩ := saturating_bounds (sq_nonneg (r.rampTimeMonths / 12))
  obtain ⟨ht20, ht21⟩ :=
    saturating_bounds (q := r.annualSpend / 100) (by positivity)
  have hpd0 : 0 ≤ r.partnershipScore / 3 := by positivity
  have hpd1 : r.partnershipScore / 3 ≤ 1 := by
    rw [div_le_one (by norm_num : (0:ℚ) < 3)]; linarith
  have hid0 : 0 ≤ r.innovationScore / 3 := by positivity
  have hid1 : r.innovationScore / 3 ≤ 1 := by
    rw [div_le_one (by norm_num : (0:ℚ) < 3)]; linarith
  have hkd0 : 0 ≤ (4 - r.supplyRiskScore) / 3 := by
    apply div_nonneg _ (by norm_num); linarith
  have hkd1 : (4 - r.supplyRiskScore) / 3 ≤ 1 := by
    rw [div_le_one (by norm_num : (0:ℚ) < 3)]; linarith
  have l2 : 0 ≤ w.w2 * r.soleSourceShare := mul_nonneg hw2 hs0
  have l3 : 0 ≤ w.w3 * r.singleSourceShare := mul_nonneg hw3 hg0
  have l4 : 0 ≤ w.w4 * r.multiSourceShare := mul_nonneg hw4 hm0
  have l5 : 0 ≤ w.w5 * (1 - 1 / (1 + (r.rampTimeMonths / 12) ^ 2)) :=
    mul_nonneg hw5 ht10
  have l6 : 0 ≤ w.w6 * (1 - 1 / (1 + r.annualSpend / 100)) :=
    mul_nonneg hw6 ht20
  have l7 : 0 ≤ w.w7 * (r.partnershipScore / 3) := mul_nonneg hw7 hpd0
  have l8 : 0 ≤ w.w8 * (r.innovationScore / 3) := mul_nonneg hw8 hid0
  have l9 : 0 ≤ w.w9 * ((4 - r.supplyRiskScore) / 3) := mul_nonneg hw9 hkd0
  have u2 : w.w2 * r.soleSourceShare ≤ w.w2 := mul_le_of_le_one_right hw2 hs1
  have u3 : w.w3 * r.singleSourceShare ≤ w.w3 :=
    mul_le_of_le_one_right hw3 hg1
  have u4 : w.w4 * r.multiSourceShare ≤ w.w4 := mul_le_of_le_one_right hw4 hm1
  have u5 : w.w5 * (1 - 1 / (1 + (r.rampTimeMonths / 12) ^ 2)) ≤ w.w5 :=
    mul_le_of_le_one_right hw5 ht11
  have u6 : w.w6 * (1 - 1 / (1 + r.annualSpend / 100)) ≤ w.w6 :=
    mul_le_of_le_one_right hw6 ht21
  have u7 : w.w7 * (r.partnershipScore / 3) ≤ w.w7 :=
    mul_le_of_le_one_right hw7 hpd1
  have u8 : w.w8 * (r.innovationScore / 3) ≤ w.w8 :=
    mul_le_of_le_one_right hw8 hid1
  have u9 : w.w9 * ((4 - r.supplyRiskScore) / 3) ≤ w.w9 :=
    mul_le_of_le_one_right hw9 hkd1
  constructor <;> linarith

/-- Counterexample to claim C2: the claim constrains the scale factor only
from above, so a weight configuration with scale factor `-100` (per-unit
weights all 10, summing to 80) satisfies every stated hypothesis, yet the
perfectly well-formed supplier X receives the negative score `-169/3`. -/
theorem claim2_counterexample :
    ValidRecord supplierX ∧ ClaimedWeights negScaleWeights ∧
      calculate_supplier_score negScaleWeights supplierX < 0 := by
  refine ⟨?_, ?_, ?_⟩
  · simp only [ValidRecord, supplierX]; norm_num
  · simp only [ClaimedWeights, negScaleWeights]; norm_num
  · norm_num [calculate_supplier_score, negScaleWeights, supplierX]

/-- Claim C2 as amended: with the scale factor additionally non-negative
(as the spec's own wording "all weights are non-negative" requires), every
valid record and claim-C2 weight configuration yields a score in
`[0, 100]`. -/
theorem claim2_score_bounds (w : BUWeights) (r : SupplierRecord)
    (hr : ValidRecord r) (hw : ClaimedWeights w) (hw0 : 0 ≤ w.w0) :
    0 ≤ calculate_supplier_score w r ∧ calculate_supplier_score w r ≤ 100 := by
  obtain ⟨hS0, hS1⟩ := sum_components_bounds w r hr hw
  have hw0u : w.w0 ≤ 100 := hw.2.2.2.2.2.2.2.2.2
  rw [score_unfolded]
  constructor
  · exact mul_nonneg hw0 hS0
  · have h1 : w.w0 *
        ((w.w2 * r.soleSourceShare + w.w3 * r.singleSourceShare +
            w.w4 * r.multiSourceShare) / 100 +
          w.w5 * (1 - 1 / (1 + (r.rampTimeMonths / 12) ^ 2)) / 100 +
          w.w6 * (1 - 1 / (1 + r.annualSpend / 100)) / 100 +
          w.w7 * (r.partnershipScore / 3) / 100 +
          w.w8 * (r.innovationScore / 3) / 100 +
          w.w9 * ((4 - r.supplyRiskScore) / 3) / 100) ≤ w.w0 :=
      mul_le_of_le_one_right hw0 hS1
    linarith

/-- Witness for `claim2_score_bounds`: the `Business_Unit_B` weights
(per-unit sum 96 ≤ 100, scale factor 100) and supplier X. -/
theorem claim2_score_bounds_witness :
    (ValidRecord supplierX ∧ ClaimedWeights buWeightsB ∧ 0 ≤ buWeightsB.w0) ∧
      0 ≤ calculate_supplier_score buWeightsB supplierX ∧
        calculate_supplier_score buWeightsB supplierX ≤ 100 :=
  ⟨⟨by simp only [ValidRecord, supplierX]; norm_num,
    by simp only [ClaimedWeights, buWeightsB]; norm_num,
    by simp only [buWeightsB]; norm_num⟩,
    claim2_score_bounds buWeightsB supplierX
      (by simp only [ValidRecord, supplierX]; norm_num)
      (by simp only [ClaimedWeights, buWeightsB]; norm_num)
      (by simp only [buWeightsB]; norm_num)⟩

/-- Counterexample to claim C5: classification of a present-but-empty table
(`some []`, the zero-row dataset) returns the silent empty result `ok []`;
no `EmptyDatasetError` is raised (the source has no such error at all). -/
theorem claim5_counterexample :
    classify_suppliers (some []) = Except.ok [] := rfl

/-- Claim C5 as amended: classification on a zero-row table silently
returns an empty table; an error (`ValueError`) is raised only when no
dataset has been loaded at all (`none`). -/
theorem claim5_empty_behaviour :
    classify_suppliers (some []) = Except.ok [] ∧
      classify_suppliers none =
        Except.error
          "No supplier data available. Please generate or load data first." :=
  ⟨rfl, rfl⟩

/-- Every non-empty list of rationals has a maximal member. -/
theorem exists_max_mem (l : List ℚ) (h : l ≠ []) :
    ∃ m ∈ l, ∀ x ∈ l, x ≤ m := by
  induction l with
  | nil => exact absurd rfl h
  | cons a t ih =>
    cases t with
    | nil =>
      refine ⟨a, List.mem_singleton_self a, ?_⟩
      intro x hx
      rw [List.mem_singleton] at hx
      exact le_of_eq hx
    | cons b t' =>
      obtain ⟨m, hm, hmax⟩ := ih (List.cons_ne_nil b t')
      rcases le_total a m with hc | hc
      · refine ⟨m, List.mem_cons_of_mem a hm, ?_⟩
        intro x hx
        rcases List.mem_cons.mp hx with hx | hx
        · exact hx ▸ hc
        · exact hmax x hx
      · refine ⟨a, List.mem_cons_self a _, ?_⟩
        intro x hx
        rcases List.mem_cons.mp hx with hx | hx
        · exact le_of_eq hx
        · exact le_trans (hmax x hx) hc

/-- The inclusive percentile is monotone in the score. -/
theorem percentile_mono (scores : List ℚ) {a b : ℚ} (hab : a ≤ b) :
    percentile scores a ≤ percentile scores b := by
  unfold percentile
  have hcount : scores.countP (fun x => decide (x ≤ a)) ≤
      scores.countP fun x => decide (x ≤ b) :=
    List.countP_mono_left fun x _ hx =>
      decide_eq_true (le_trans (of_decide_eq_true hx) hab)
  have hc : ((scores.countP fun x => decide (x ≤ a)) : ℚ) ≤
      ((scores.countP fun x => decide (x ≤ b)) : ℚ) := by
    exact_mod_cast hcount
  rcases Nat.eq_zero_or_pos scores.length with h0 | h0
  · rw [h0]
    norm_num
  · have hl : (0 : ℚ) < (scores.length : ℚ) := by exact_mod_cast h0
    have hdiv := (div_le_div_iff_of_pos_right hl).mpr hc
    exact mul_le_mul_of_nonneg_right hdiv (by norm_num)

/-- A score that bounds every score in the table has inclusive percentile
exactly 100 (when the table is non-empty). -/
theorem percentile_of_max (scores : List ℚ) (h : scores ≠ []) {m : ℚ}
    (hmax : ∀ x ∈ scores, x ≤ m) : percentile scores m = 100 := by
  unfold percentile
  have hall : scores.countP (fun x => decide (x ≤ m)) = scores.length :=
    List.countP_eq_length.mpr fun a ha => decide_eq_true (hmax a ha)
  rw [hall]
  have hpos : 0 < scores.length := List.length_pos.mpr h
  have hlen : (scores.length : ℚ) ≠ 0 := by
    exact_mod_cast Nat.pos_iff_ne_zero.mp hpos
  rw [div_self hlen, one_mul]

/-- The threshold cascade always produces one of the four labels. -/
theorem classifyByPercentile_mem (p : ℚ) :
    classifyByPercentile p = "Strategic" ∨
      classifyByPercentile p = "Critical" ∨
      classifyByPercentile p = "Operational" ∨
      classifyByPercentile p = "Transactional" := by
  unfold classifyByPercentile
  split_ifs <;> simp

/-- The threshold cascade is monotone: a higher percentile never yields a
strictly less strategic segment. -/
theorem segRank_mono {p q : ℚ} (hpq : p ≤ q) :
    segRank (classifyByPercentile p) ≤ segRank (classifyByPercentile q) := by
  unfold classifyByPercentile
  split_ifs <;> simp [segRank, segmentation_thresholds] at * <;> linarith

/-- Claim C3: the classifier's percentile rank is the inclusive fraction of
table scores at or below the given score, times 100 (it agrees with the
spec's formula); a supplier holding the maximum score always has percentile
rank exactly 100; and tied scores receive the same percentile and hence the
same segment. -/
theorem claim3_inclusive_percentile (scores : List ℚ) (h : scores ≠ [])
    (m : ℚ) (_hm : m ∈ scores) (hmax : ∀ x ∈ scores, x ≤ m) (a b : ℚ)
    (hab : a = b) :
    percentile scores m = 100 ∧
      (∀ s : ℚ, percentile scores s = percentileSpec scores s) ∧
      percentile scores a = percentile scores b ∧
      classifySegment scores a = classifySegment scores b := by
  refine ⟨percentile_of_max scores h hmax, ?_, by rw [hab], by rw [hab]⟩
  intro s
  unfold percentile percentileSpec
  rw [List.countP_eq_length_filter]

/-- Witness for `claim3_inclusive_percentile` on the two-row table
`[60, 90]`, whose maximum 90 sits at the 100th percentile. -/
theorem claim3_inclusive_percentile_witness :
    (([60, 90] : List ℚ) ≠ [] ∧ (90 : ℚ) ∈ ([60, 90] : List ℚ) ∧
        (∀ x ∈ ([60, 90] : List ℚ), x ≤ 90) ∧ (60 : ℚ) = 60) ∧
      percentile [60, 90] 90 = 100 ∧
        (∀ s : ℚ, percentile [60, 90] s = percentileSpec [60, 90] s) ∧
        percentile [60, 90] 60 = percentile [60, 90] 60 ∧
        classifySegment [60, 90] 60 = classifySegment [60, 90] 60 :=
  ⟨⟨by decide, by decide, by decide, rfl⟩,
    claim3_inclusive_percentile [60, 90] (by decide) 90 (by decide)
      (by decide) 60 60 rfl⟩

/-- Claim C4: every supplier receives exactly one of the four ordered
labels, and labels are monotone in score: a score at least as high yields a
segment rank at least as high, with equal scores mapping to identical
labels. -/
theorem claim4_labels_monotone (scores : List ℚ) (_h : scores ≠ [])
    (a b : ℚ) (hba : b ≤ a) :
    (classifySegment scores a = "Strategic" ∨
        classifySegment scores a = "Critical" ∨
        classifySegment scores a = "Operational" ∨
        classifySegment scores a = "Transactional") ∧
      segRank (classifySegment scores b) ≤ segRank (classifySegment scores a) ∧
      (b = a → classifySegment scores b = classifySegment scores a) := by
  refine ⟨classifyByPercentile_mem _, ?_, fun hba' => by rw [hba']⟩
  exact segRank_mono (percentile_mono scores hba)

/-- Witness for `claim4_labels_monotone` on the table `[60, 90]` with the
scores 90 ≥ 60. -/
theorem claim4_labels_monotone_witness :
    (([60, 90] : List ℚ) ≠ [] ∧ (60 : ℚ) ≤ 90) ∧
      (classifySegment [60, 90] 90 = "Strategic" ∨
          classifySegment [60, 90] 90 = "Critical" ∨
          classifySegment [60, 90] 90 = "Operational" ∨
          classifySegment [60, 90] 90 = "Transactional") ∧
        segRank (classifySegment [60, 90] 60) ≤
          segRank (classifySegment [60, 90] 90) ∧
        ((60 : ℚ) = 90 →
          classifySegment [60, 90] 60 = classifySegment [60, 90] 90) :=
  ⟨⟨by decide, by norm_num⟩,
    claim4_labels_monotone [60, 90] (by decide) 90 60 (by norm_num)⟩

/-- Claim C10: with the built-in thresholds (Strategic 95, Critical 85,
Operational 45, Transactional 0), classification of any non-empty table
labels at least one row "Strategic": a row holding the maximum score has
inclusive percentile 100 ≥ 95. -/
theorem claim10_strategic_nonempty (rows : List SupplierRow)
    (h : rows ≠ []) :
    segmentation_thresholds =
        { strategic := 95, critical := 85, operational := 45,
          transactional := 0 } ∧
      ∃ out, classify_suppliers (some rows) = Except.ok out ∧
        ∃ e ∈ out, e.2.2 = "Strategic" := by
  refine ⟨rfl, ?_⟩
  refine ⟨_, rfl, ?_⟩
  have hscores : rows.map (fun row =>
      calculate_supplier_score (bu_weights row.bu) row.attrs) ≠ [] := by
    simpa using h
  obtain ⟨m, hm, hmax⟩ := exists_max_mem _ hscores
  obtain ⟨r₀, hr₀, hfr₀⟩ := List.mem_map.mp hm
  refine ⟨(r₀, calculate_supplier_score (bu_weights r₀.bu) r₀.attrs,
    classifySegment _ (calculate_supplier_score (bu_weights r₀.bu) r₀.attrs)),
    List.mem_map_of_mem _ hr₀, ?_⟩
  show classifySegment _ _ = _
  rw [hfr₀]
  unfold classifySegment classifyByPercentile
  rw [percentile_of_max _ hscores hmax]
  norm_num [segmentation_thresholds]

/-- Witness for `claim10_strategic_nonempty` on a one-row table. -/
theorem claim10_strategic_nonempty_witness :
    ([⟨BUnit.unitA, supplierX⟩] : List SupplierRow) ≠ [] ∧
      (segmentation_thresholds =
          { strategic := 95, critical := 85, operational := 45,
            transactional := 0 } ∧
        ∃ out, classify_suppliers (some [⟨BUnit.unitA, supplierX⟩]) =
            Except.ok out ∧ ∃ e ∈ out, e.2.2 = "Strategic") :=
  ⟨by simp, claim10_strategic_nonempty [⟨BUnit.unitA, supplierX⟩] (by simp)⟩

/-- Along a list of non-negative spends, every cumulative percentage is at
least the percentage already accumulated. -/
theorem cumulativePctsAux_lower {total : ℚ} (htot : 0 < total) :
    ∀ (l : List ℚ) (acc : ℚ), (∀ x ∈ l, 0 ≤ x) →
      ∀ p ∈ cumulativePctsAux total acc l, acc / total * 100 ≤ p := by
  intro l
  induction l with
  | nil =>
    intro acc _ p hp
    simp [cumulativePctsAux] at hp
  | cons x xs ih =>
    intro acc hnn p hp
    have hx : 0 ≤ x := hnn x (List.mem_cons_self x xs)
    have hstep : acc / total * 100 ≤ (acc + x) / total * 100 := by
      have h1 : acc / total ≤ (acc + x) / total :=
        (div_le_div_iff_of_pos_right htot).mpr (by linarith)
      exact mul_le_mul_of_nonneg_right h1 (by norm_num)
    rw [cumulativePctsAux] at hp
    rcases List.mem_cons.mp hp with hp | hp
    · rw [hp]
      exact hstep
    · exact le_trans hstep
        (ih (acc + x) (fun y hy => hnn y (List.mem_cons_of_mem x hy)) p hp)

/-- For non-negative spends the cumulative-percentage column is
non-decreasing, so counting the entries `≤ 80` is the same as taking the
leading run of entries `≤ 80`. -/
theorem countP_eq_takeWhile_length {total : ℚ} (htot : 0 < total) :
    ∀ (l : List ℚ) (acc : ℚ), (∀ x ∈ l, 0 ≤ x) →
      (cumulativePctsAux total acc l).countP (fun p => decide (p ≤ 80)) =
        ((cumulativePctsAux total acc l).takeWhile
          fun p => decide (p ≤ 80)).length := by
  intro l
  induction l with
  | nil =>
    intro acc _
    rfl
  | cons x xs ih =>
    intro acc hnn
    have hnn' : ∀ y ∈ xs, 0 ≤ y := fun y hy => hnn y (List.mem_cons_of_mem x hy)
    simp only [cumulativePctsAux, List.countP_cons, List.takeWhile_cons,
      decide_eq_true_eq]
    by_cases hh : (acc + x) / total * 100 ≤ 80
    · rw [if_pos hh, if_pos hh, List.length_cons, ih (acc + x) hnn']
    · rw [if_neg hh, if_neg hh]
      have hzero : (cumulativePctsAux total (acc + x) xs).countP
          (fun p => decide (p ≤ 80)) = 0 := by
        rw [List.countP_eq_zero]
        intro p hp
        have hlow := cumulativePctsAux_lower htot xs (acc + x) hnn' p hp
        simp only [decide_eq_true_eq]
        push_neg at hh ⊢
        linarith
      rw [hzero]
      rfl

/-- A list of non-positive rationals has non-positive sum. -/
theorem sum_nonpos_of_forall (l : List ℚ) (h : ∀ x ∈ l, x ≤ 0) :
    l.sum ≤ 0 := by
  induction l with
  | nil => simp
  | cons a t ih =>
    rw [List.sum_cons]
    have h1 := h a (List.mem_cons_self a t)
    have h2 := ih fun y hy => h y (List.mem_cons_of_mem a hy)
    linarith

/-- Inserting a spend of 0 into a descending-sorted spend column does not
change the number of cumulative percentages `≤ 80`: the zero row lands
where the cumulative spend already is at least the whole total, i.e. at or
above 100%. -/
theorem countP_orderedInsert_zero {total : ℚ} (htot : 0 < total) :
    ∀ (l : List ℚ) (acc : ℚ), l.Sorted spendDescOrder →
      total = acc + l.sum →
      (cumulativePctsAux total acc
          (l.orderedInsert spendDescOrder 0)).countP
          (fun p => decide (p ≤ 80)) =
        (cumulativePctsAux total acc l).countP fun p => decide (p ≤ 80) := by
  intro l
  induction l with
  | nil =>
    intro acc _ htoteq
    have hacc : acc + 0 = total := by simpa using htoteq.symm
    simp only [List.orderedInsert, cumulativePctsAux, List.countP_cons,
      List.countP_nil]
    rw [hacc, div_self (ne_of_gt htot)]
    norm_num
  | cons b bs ih =>
    intro acc hsorted htoteq
    rw [List.orderedInsert]
    by_cases hb : spendDescOrder 0 b
    · rw [if_pos hb]
      have hble : ∀ y ∈ b :: bs, y ≤ 0 := by
        intro y hy
        rcases List.mem_cons.mp hy with hy | hy
        · exact hy ▸ hb
        · exact le_trans (List.rel_of_sorted_cons hsorted y hy) hb
      have hsumle : (b :: bs).sum ≤ 0 := sum_nonpos_of_forall _ hble
      have hacc : total ≤ acc := by rw [htoteq]; linarith
      have hpct : ¬acc / total * 100 ≤ 80 := by
        have h1 : 1 ≤ acc / total := (one_le_div htot).mpr hacc
        intro hc
        linarith
      simp only [cumulativePctsAux, List.countP_cons, add_zero,
        decide_eq_true_eq]
      rw [if_neg hpct]
      rfl
    · rw [if_neg hb]
      simp only [cumulativePctsAux, List.countP_cons]
      rw [ih (acc + b) hsorted.of_cons
        (by rw [htoteq, List.sum_cons]; ring)]

/-- Counterexample to claim C7: on the single-supplier table with spend 100
(total spend positive), the smallest prefix reaching 80% cumulative share
has size 1, but the analysis returns 0, because it counts the rows whose
cumulative share is `≤ 80%` and the single row sits at 100%. -/
theorem claim7_counterexample :
    (0 : ℚ) < ([100] : List ℚ).sum ∧ pareto80Count [100] = 0 ∧
      paretoCutoffSpec [100] = 1 := by
  refine ⟨by norm_num, ?_, ?_⟩
  · norm_num [pareto80Count, cumulativePcts, cumulativePctsAux,
      sortSpendsDesc, spendDescOrder, List.insertionSort, List.orderedInsert]
  · norm_num [paretoCutoffSpec, firstReachAux, sortSpendsDesc,
      spendDescOrder, List.insertionSort, List.orderedInsert]

/-- Claim C7 as amended: the `pareto_80_index` returned by the
spend-concentration analysis is the size of the LARGEST prefix of the
descending-sorted suppliers whose cumulative spend share is at most 80%
(not the smallest prefix reaching 80%). -/
theorem claim7_pareto_count (spends : List ℚ) (hnn : ∀ x ∈ spends, 0 ≤ x)
    (hpos : 0 < spends.sum) :
    pareto80Count spends =
      ((cumulativePcts spends).takeWhile fun p => decide (p ≤ 80)).length := by
  unfold pareto80Count cumulativePcts
  have hperm := List.perm_insertionSort spendDescOrder spends
  have hsum : (sortSpendsDesc spends).sum = spends.sum := hperm.sum_eq
  have htot : 0 < (sortSpendsDesc spends).sum := by rw [hsum]; exact hpos
  exact countP_eq_takeWhile_length htot (sortSpendsDesc spends) 0
    fun x hx => hnn x (hperm.mem_iff.mp hx)

/-- Witness for `claim7_pareto_count` on the table `[50, 30, 20]`: the
first two cumulative shares (50%, 80%) are `≤ 80`, the third is 100%. -/
theorem claim7_pareto_count_witness :
    ((∀ x ∈ ([50, 30, 20] : List ℚ), 0 ≤ x) ∧
        (0 : ℚ) < ([50, 30, 20] : List ℚ).sum) ∧
      pareto80Count [50, 30, 20] =
        ((cumulativePcts [50, 30, 20]).takeWhile
          fun p => decide (p ≤ 80)).length :=
  ⟨⟨by decide, by norm_num⟩,
    claim7_pareto_count [50, 30, 20] (by decide) (by norm_num)⟩

/-- Claim C8: appending a supplier with spend 0 to any table with positive
total spend leaves the Pareto 80% cutoff count unchanged. -/
theorem claim8_zero_spend_invariant (spends : List ℚ)
    (hpos : 0 < spends.sum) :
    pareto80Count (spends ++ [0]) = pareto80Count spends := by
  have hsorted : (sortSpendsDesc spends).Sorted spendDescOrder :=
    List.sorted_insertionSort spendDescOrder spends
  have hperm := List.perm_insertionSort spendDescOrder spends
  have hins : sortSpendsDesc (spends ++ [0]) =
      (sortSpendsDesc spends).orderedInsert spendDescOrder 0 :=
    List.eq_of_perm_of_sorted
      (((List.perm_insertionSort spendDescOrder (spends ++ [0])).trans
          ((List.perm_append_singleton 0 spends).trans
            (hperm.symm.cons 0))).trans
        (List.perm_orderedInsert spendDescOrder 0 _).symm)
      (List.sorted_insertionSort spendDescOrder _)
      (hsorted.orderedInsert 0 _)
  have hsum : (sortSpendsDesc spends).sum = spends.sum := hperm.sum_eq
  have hsumins : ((sortSpendsDesc spends).orderedInsert
      spendDescOrder 0).sum = (sortSpendsDesc spends).sum := by
    rw [(List.perm_orderedInsert spendDescOrder 0 _).sum_eq, List.sum_cons,
      zero_add]
  have htot : 0 < (sortSpendsDesc spends).sum := by rw [hsum]; exact hpos
  unfold pareto80Count cumulativePcts
  rw [hins, hsumins]
  exact countP_orderedInsert_zero htot (sortSpendsDesc spends) 0 hsorted
    (zero_add _).symm

/-- Witness for `claim8_zero_spend_invariant` on the table `[50, 30, 20]`. -/
theorem claim8_zero_spend_invariant_witness :
    (0 : ℚ) < ([50, 30, 20] : List ℚ).sum ∧
      pareto80Count ([50, 30, 20] ++ [0]) = pareto80Count [50, 30, 20] :=
  ⟨by norm_num, claim8_zero_spend_invariant [50, 30, 20] (by norm_num)⟩

end SupplierScoring
